import Mathlib

/-!
Verification of the Bitbucket MCP server's normalization, formatting and
error-classification pipeline.

The TypeScript source is shallowly embedded: JSON-like runtime values are the
inductive `Json`; JavaScript truthiness, string coercion, optional chaining
and property access (which throws a TypeError on `null`/`undefined`
receivers) are modelled explicitly; functions that can throw return
`Except String _` where the error is the thrown value's description.
-/

/-- JSON-like JavaScript runtime value (including `undefined`).
Numbers are modelled as integers; no claim under scrutiny involves
non-integral numbers. -/
inductive Json where
  | undefined
  | null
  | bool (b : Bool)
  | num (n : Int)
  | str (s : String)
  | arr (elems : List Json)
  | obj (fields : List (String × Json))
deriving Repr

/-- JavaScript truthiness of a value (`NaN` is not representable here). -/
def jsTruthy : Json → Bool
  | .undefined => false
  | .null => false
  | .bool b => b
  | .num n => n != 0
  | .str s => s != ""
  | .arr _ => true
  | .obj _ => true

mutual
/-- JavaScript `String(x)` / template-literal coercion. -/
def jsToString : Json → String
  | .undefined => "undefined"
  | .null => "null"
  | .bool b => cond b "true" "false"
  | .num n => toString n
  | .str s => s
  | .arr xs => String.intercalate "," (jsArrayElemStrings xs)
  | .obj _ => "[object Object]"

/-- Element strings of `Array.prototype.toString` (a `join(',')`):
`null` and `undefined` elements render as the empty string. -/
def jsArrayElemStrings : List Json → List String
  | [] => []
  | .null :: rest => "" :: jsArrayElemStrings rest
  | .undefined :: rest => "" :: jsArrayElemStrings rest
  | v :: rest => jsToString v :: jsArrayElemStrings rest
end

/-- Property access `receiver.key` (also `receiver[key]`): throws a TypeError
on `null`/`undefined` receivers; unknown properties of objects and boxed
primitives are `undefined`. -/
def getField? (receiver : Json) (key : String) : Except String Json :=
  match receiver with
  | .undefined => .error "TypeError: Cannot read properties of undefined"
  | .null => .error "TypeError: Cannot read properties of null"
  | .obj fs =>
    match fs.lookup key with
    | some v => .ok v
    | none => .ok .undefined
  | _ => .ok .undefined

/-- Optional chaining `receiver?.key`: yields `undefined` instead of throwing
when the receiver is `null`/`undefined`. -/
def getFieldOpt (receiver : Json) (key : String) : Except String Json :=
  match receiver with
  | .undefined => .ok .undefined
  | .null => .ok .undefined
  | _ => getField? receiver key

/-- JavaScript `a || b`. -/
def jsOr (a b : Json) : Json :=
  if jsTruthy a then a else b

/-- JavaScript `a ?? b`. -/
def jsNullish (a b : Json) : Json :=
  match a with
  | .null => b
  | .undefined => b
  | _ => a

/-- JavaScript `Object.keys(x)` in insertion order: throws on
`null`/`undefined`, yields `[]` for primitives. -/
def jsObjectKeys : Json → Except String (List String)
  | .undefined => .error "TypeError: Cannot convert undefined or null to object"
  | .null => .error "TypeError: Cannot convert undefined or null to object"
  | .obj fs => .ok (fs.map Prod.fst)
  | _ => .ok []

/-- JavaScript `x.substring(0, n)`: a method present only on strings; calling
it on any other runtime value throws. -/
def jsSubstringTo (receiver : Json) (n : Nat) : Except String String :=
  match receiver with
  | .str s => .ok (String.mk (s.toList.take n))
  | _ => .error "TypeError: substring is not a function"

/-- JavaScript `x.split(c)[0]` for a one-character separator: the text before
the first occurrence of the separator; throws when `x` is not a string. -/
def jsSplitFirst (receiver : Json) (sep : Char) : Except String String :=
  match receiver with
  | .str s => .ok (String.mk (s.toList.takeWhile (· != sep)))
  | _ => .error "TypeError: split is not a function"

/-- JavaScript `x.join(sep)` reached through an optional chain `x?.join(sep)`:
`undefined` receivers pass through, arrays join (with `null`/`undefined`
elements rendered empty), other values throw. -/
def jsJoinOpt (receiver : Json) (sep : String) : Except String Json :=
  match receiver with
  | .undefined => .ok .undefined
  | .null => .ok .undefined
  | .arr xs => .ok (.str (String.intercalate sep (jsArrayElemStrings xs)))
  | _ => .error "TypeError: join is not a function"

/-- Value of a digit run in base 10. -/
def digitsToNat (ds : List Char) : Nat :=
  ds.foldl (fun acc c => acc * 10 + (c.toNat - 48)) 0

/-- JavaScript `Number.parseInt(s, 10)`: skip leading whitespace, optional
sign, then the longest leading digit run; `none` models the `NaN` result when
no digits are found. -/
def jsParseInt (s : String) : Option Int :=
  let l := s.toList.dropWhile (·.isWhitespace)
  let signAndRest : Int × List Char :=
    match l with
    | '-' :: r => (-1, r)
    | '+' :: r => (1, r)
    | _ => (1, l)
  let ds := signAndRest.2.takeWhile (·.isDigit)
  if ds.isEmpty then none
  else some (signAndRest.1 * (digitsToNat ds : Int))

/-- Escape of one character inside a JSON string literal. -/
def jsonEscapeChar (c : Char) : String :=
  if c = '"' then "\\\""
  else if c = '\\' then "\\\\"
  else if c = '\n' then "\\n"
  else if c = '\r' then "\\r"
  else if c = '\t' then "\\t"
  else String.mk [c]

/-- Escape of a JSON string body. -/
def jsonEscape (s : String) : String :=
  String.join (s.toList.map jsonEscapeChar)

mutual
/-- Model of the platform builtin `JSON.stringify`. The source always calls
it as `JSON.stringify(v, null, 2)`; the two-space indentation is not
reproduced (no claim depends on the whitespace of the rendered text), the
value structure is. A top-level `undefined` — where the builtin returns the
`undefined` value instead of a string — is rendered as the text
`undefined`. -/
def jsonStringify : Json → String
  | .undefined => "undefined"
  | .null => "null"
  | .bool b => cond b "true" "false"
  | .num n => toString n
  | .str s => "\"" ++ jsonEscape s ++ "\""
  | .arr xs => "[" ++ String.intercalate "," (jsonStringifyElems xs) ++ "]"
  | .obj fs => "\x7b" ++ String.intercalate "," (jsonStringifyFields fs) ++ "\x7d"

/-- Array elements: `undefined` entries serialize as `null`. -/
def jsonStringifyElems : List Json → List String
  | [] => []
  | .undefined :: rest => "null" :: jsonStringifyElems rest
  | v :: rest => jsonStringify v :: jsonStringifyElems rest

/-- Object fields: `undefined`-valued keys are dropped. -/
def jsonStringifyFields : List (String × Json) → List String
  | [] => []
  | (_, .undefined) :: rest => jsonStringifyFields rest
  | (k, v) :: rest =>
    ("\"" ++ jsonEscape k ++ "\":" ++ jsonStringify v) :: jsonStringifyFields rest
end

/-- Model of `new Date(x).toLocaleDateString()`: the rendered text is locale
and environment dependent, so it is modelled as an injective total rendering;
no claim under scrutiny depends on its value, only on its totality. -/
def localeDateString (x : Json) : String :=
  "date(" ++ jsToString x ++ ")"

/-- Substring test used to state claims about produced query strings. -/
def strContains (hay pat : String) : Bool :=
  hay.toList.tails.any (fun t => pat.toList.isPrefixOf t)

-- =============================================================================
-- src/types/entities.ts — pagination shapes
-- =============================================================================

/-- Mirror of the `PaginationParams` interface (all fields optional). -/
structure PaginationParams where
  pagelen : Option Int := none
  page : Option Int := none
  q : Option String := none
  sort : Option String := none
deriving Repr, DecidableEq

/-- Mirror of the `BitbucketPaginatedResponse<T>` envelope. -/
structure BitbucketPaginatedResponse (T : Type) where
  size : Option Int := none
  page : Option Int := none
  pagelen : Option Int := none
  next : Option String := none
  previous : Option String := none
  values : List T
deriving Repr, DecidableEq

/-- Mirror of the normalized `PaginatedResponse<T>` shape. -/
structure PaginatedResponse (T : Type) where
  items : List T
  count : Nat
  total : Option Int := none
  hasMore : Bool
  nextCursor : Option String := none
deriving Repr, DecidableEq

-- =============================================================================
-- src/utils/pagination.ts
-- =============================================================================

/-- PAGINATION_DEFAULTS.pagelen. -/
def PAGINATION_DEFAULTS_pagelen : Int := 20

/-- PAGINATION_DEFAULTS.maxPagelen. -/
def PAGINATION_DEFAULTS_maxPagelen : Int := 100

/-- Truthiness of an optional JS string (`undefined` and `''` are falsy). -/
def jsTruthyOptStr (o : Option String) : Bool :=
  match o with
  | none => false
  | some s => s != ""

/-- Truthiness of an optional JS number (`undefined` and `0` are falsy). -/
def jsTruthyOptInt (o : Option Int) : Bool :=
  match o with
  | none => false
  | some n => n != 0

/-- JavaScript `o || d` for an optional number. -/
def jsOrIntDefault (o : Option Int) (d : Int) : Int :=
  match o with
  | some n => if n != 0 then n else d
  | none => d

/-- Normalized pagination parameters: the source's
`Required<Pick<PaginationParams, 'pagelen'>> & Omit<PaginationParams, 'pagelen'>`. -/
structure NormalizedPaginationParams where
  pagelen : Int
  page : Option Int
  q : Option String
  sort : Option String
deriving Repr, DecidableEq

/-- `normalizePaginationParams` from src/utils/pagination.ts:
`pagelen: Math.min(params?.pagelen || PAGINATION_DEFAULTS.pagelen, maxPagelen)`
with the other fields passed through. -/
def normalizePaginationParams (params : Option PaginationParams)
    (maxPagelen : Int := PAGINATION_DEFAULTS_maxPagelen) : NormalizedPaginationParams :=
  { pagelen := min (jsOrIntDefault (params.bind (·.pagelen)) PAGINATION_DEFAULTS_pagelen) maxPagelen
    page := params.bind (·.page)
    q := params.bind (·.q)
    sort := params.bind (·.sort) }

/-- `convertPaginatedResponse` from src/utils/pagination.ts: `hasMore` is the
JavaScript double negation `!!response.next`. -/
def convertPaginatedResponse {T : Type} (response : BitbucketPaginatedResponse T) :
    PaginatedResponse T :=
  { items := response.values
    count := response.values.length
    total := response.size
    hasMore := jsTruthyOptStr response.next
    nextCursor := response.next }

/-- `emptyPaginatedResponse` from src/utils/pagination.ts. -/
def emptyPaginatedResponse (T : Type) : PaginatedResponse T :=
  { items := [], count := 0, hasMore := false }

/-- Percent-encoding of one byte. -/
def percentEncodeByte (b : UInt8) : String :=
  let hex : Nat → Char := fun n =>
    if n < 10 then Char.ofNat (48 + n) else Char.ofNat (55 + n)
  String.mk ['%', hex (b.toNat / 16), hex (b.toNat % 16)]

/-- Model of the platform builtin `encodeURIComponent`: unreserved characters
pass through, everything else is percent-encoded per UTF-8 byte. -/
def encodeURIComponent (s : String) : String :=
  let unreserved : Char → Bool := fun c =>
    c.isAlphanum || c = '-' || c = '_' || c = '.' || c = '!' || c = '~' ||
      c = '*' || c = Char.ofNat 39 || c = '(' || c = ')'
  String.join (s.toList.map (fun c =>
    if unreserved c then String.mk [c]
    else String.join ((String.mk [c]).toUTF8.toList.map percentEncodeByte)))

/-- `buildPaginationQuery` from src/utils/pagination.ts: serializes the given
params verbatim (each field included when truthy), `q` and `sort`
percent-encoded; note it does not call `normalizePaginationParams`. -/
def buildPaginationQuery (params : Option PaginationParams) : String :=
  match params with
  | none => ""
  | some p =>
    let queryParts : List String :=
      (match p.pagelen with
       | some n => if n != 0 then ["pagelen=" ++ toString n] else []
       | none => []) ++
      (match p.page with
       | some n => if n != 0 then ["page=" ++ toString n] else []
       | none => []) ++
      (match p.q with
       | some s => if s != "" then ["q=" ++ encodeURIComponent s] else []
       | none => []) ++
      (match p.sort with
       | some s => if s != "" then ["sort=" ++ encodeURIComponent s] else []
       | none => [])
    if queryParts.length > 0 then "?" ++ String.intercalate "&" queryParts else ""

-- =============================================================================
-- src/types/env.ts — tenant credentials
-- =============================================================================

/-- Mirror of the `TenantCredentials` interface (all fields optional, parsed
from per-request headers). -/
structure TenantCredentials where
  username : Option String := none
  appPassword : Option String := none
  accessToken : Option String := none
  baseUrl : Option String := none
deriving Repr, DecidableEq

/-- `validateCredentials` from src/types/env.ts: throws a plain `Error` when
neither a truthy `username && appPassword` pair nor a truthy `accessToken`
is present. -/
def validateCredentials (credentials : TenantCredentials) : Except String Unit :=
  let hasBasicAuth := jsTruthyOptStr credentials.username && jsTruthyOptStr credentials.appPassword
  let hasOAuth := jsTruthyOptStr credentials.accessToken
  if !hasBasicAuth && !hasOAuth then
    .error ("Missing credentials. Provide either X-Bitbucket-Username + X-Bitbucket-App-Password headers, " ++
      "or X-Bitbucket-Access-Token header.")
  else
    .ok ()

-- =============================================================================
-- src/utils/errors.ts is absent from the source tree (only its importers are
-- present); the error taxonomy is modelled from the spec.
-- =============================================================================

/-- Modelled from the spec: the error taxonomy of the missing
src/utils/errors.ts — `AuthenticationError` (message), `RateLimitError`
(message and retry-after seconds; `none` models a `NaN` retry-after),
`BitbucketApiError` (message and HTTP status), plus a case for other thrown
`Error` values (e.g. runtime TypeErrors) and one for thrown non-`Error`
values. -/
inductive JsError where
  | authenticationError (message : String)
  | rateLimitError (message : String) (retryAfter : Option Int)
  | bitbucketApiError (message : String) (status : Int)
  | genericError (message : String)
  | thrownValue (value : Json)
deriving Repr

/-- Message text of a thrown error as read by `error.message` /
`String(error)` in `formatError`. -/
def JsError.messageText : JsError → String
  | .authenticationError m => m
  | .rateLimitError m _ => m
  | .bitbucketApiError m _ => m
  | .genericError m => m
  | .thrownValue v => jsToString v

-- =============================================================================
-- src/client.ts — BitbucketClientImpl
-- =============================================================================

/-- API_BASE_URL from src/client.ts. -/
def API_BASE_URL : String := "https://api.bitbucket.org/2.0"

/-- Base64 alphabet. -/
def base64Chars : List Char :=
  "ABCDEFGHIJKLMNOPQRSTUVWXYZabcdefghijklmnopqrstuvwxyz0123456789+/".toList

/-- One base64 output character. -/
def base64Char (n : Nat) : Char :=
  base64Chars.getD n 'A'

/-- Base64 of a byte list, three bytes at a time. -/
def base64Encode : List Nat → List Char
  | [] => []
  | [a] =>
    [base64Char (a / 4), base64Char (a % 4 * 16), '=', '=']
  | [a, b] =>
    [base64Char (a / 4), base64Char (a % 4 * 16 + b / 16), base64Char (b % 16 * 4), '=']
  | a :: b :: c :: rest =>
    base64Char (a / 4) :: base64Char (a % 4 * 16 + b / 16) ::
      base64Char (b % 16 * 4 + c / 64) :: base64Char (c % 64) :: base64Encode rest

/-- Model of the platform builtin `btoa` (over the string's UTF-8 bytes). -/
def btoa (s : String) : String :=
  String.mk (base64Encode (s.toUTF8.toList.map UInt8.toNat))

/-- The header record returned by `getAuthHeaders` (`Authorization` plus
`Content-Type: application/json`). -/
structure AuthHeaders where
  authorization : String
  contentType : String := "application/json"
deriving Repr, DecidableEq

/-- `BitbucketClientImpl.getAuthHeaders` from src/client.ts: a truthy
`accessToken` yields a Bearer header; otherwise a truthy `username` and
`appPassword` yield a Basic header; otherwise an `AuthenticationError` is
thrown. -/
def getAuthHeaders (credentials : TenantCredentials) : Except JsError AuthHeaders :=
  if jsTruthyOptStr credentials.accessToken then
    .ok { authorization := "Bearer " ++ credentials.accessToken.getD "" }
  else if jsTruthyOptStr credentials.username && jsTruthyOptStr credentials.appPassword then
    .ok { authorization := "Basic " ++
      btoa (credentials.username.getD "" ++ ":" ++ credentials.appPassword.getD "") }
  else
    .error (.authenticationError
      ("No credentials provided. Include X-Bitbucket-Username + X-Bitbucket-App-Password headers, " ++
        "or X-Bitbucket-Access-Token header."))

/-- The response the `fetch` collaborator hands back to
`BitbucketClientImpl.request`. `bodyJson` carries the outcome of the platform
builtin `JSON.parse` on the body text (`none` when the body is not valid
JSON), and `responseJson` the outcome of `response.json()`. -/
structure HttpResponse where
  status : Int
  retryAfterHeader : Option String := none
  contentTypeHeader : Option String := none
  bodyText : String := ""
  bodyJson : Option Json := none
  responseJson : Option Json := none

/-- The retry-after argument of the `RateLimitError` built on a 429:
`retryAfter ? Number.parseInt(retryAfter, 10) : 60` where `retryAfter` is
`response.headers.get('Retry-After')`; `none` models `NaN`. -/
def retryAfterValue (header : Option String) : Option Int :=
  match header with
  | none => some 60
  | some s => if s != "" then jsParseInt s else some 60

/-- The error message extracted from a non-2xx body:
`errorJson.error?.message || errorJson.message || errorJson.error || message`
evaluated inside the same try/catch as the `JSON.parse`, so any TypeError in
the chain also falls back to the default `API error: <status>` message. -/
def extractApiErrorMessage (bodyJson : Option Json) (defaultMessage : String) : String :=
  match bodyJson with
  | none => defaultMessage
  | some j =>
    match (do
      let e ← getField? j "error"
      let em ← getFieldOpt e "message"
      if jsTruthy em then pure em
      else do
        let m ← getField? j "message"
        if jsTruthy m then pure m
        else if jsTruthy e then pure e
        else pure (Json.str defaultMessage)) with
    | .ok v => jsToString v
    | .error _ => defaultMessage

/-- Whether the Content-Type header includes the given token
(`contentType.includes(tok)` on `headers.get('content-type') || ''`). -/
def contentTypeIncludes (response : HttpResponse) (tok : String) : Bool :=
  strContains (response.contentTypeHeader.getD "") tok

/-- The response-handling pipeline of `BitbucketClientImpl.request` from
src/client.ts: build auth headers (which may throw), then classify the
response — 429 throws a `RateLimitError`, 401/403 throw an
`AuthenticationError` with a fixed generic message, other non-2xx throw a
`BitbucketApiError` with a message extracted from the body, 204 yields
`undefined`, text content types yield the body text, and anything else the
parsed JSON body (`response.json()` throwing a SyntaxError on invalid
JSON). -/
def request (credentials : TenantCredentials) (response : HttpResponse) :
    Except JsError Json :=
  match getAuthHeaders credentials with
  | .error e => .error e
  | .ok _headers =>
  if response.status = 429 then
    .error (.rateLimitError "Rate limit exceeded" (retryAfterValue response.retryAfterHeader))
  else if response.status = 401 || response.status = 403 then
    .error (.authenticationError "Authentication failed. Check your Bitbucket credentials.")
  else if !(200 ≤ response.status && response.status ≤ 299) then
    .error (.bitbucketApiError
      (extractApiErrorMessage response.bodyJson ("API error: " ++ toString response.status))
      response.status)
  else if response.status = 204 then
    .ok .undefined
  else if contentTypeIncludes response "text/plain" || contentTypeIncludes response "text/x-diff" then
    .ok (.str response.bodyText)
  else
    match response.responseJson with
    | some j => .ok j
    | none => .error (.genericError "SyntaxError: Unexpected token in JSON")

/-- The state stored by the `BitbucketClientImpl` constructor, which only
records the credentials and base URL and never throws. -/
structure BitbucketClientImpl where
  credentials : TenantCredentials
  baseUrl : String
deriving Repr, DecidableEq

/-- `createBitbucketClient` from src/client.ts composed with the
`BitbucketClientImpl` constructor: `baseUrl = credentials.baseUrl ||
API_BASE_URL`; construction is total. -/
def createBitbucketClient (credentials : TenantCredentials) : BitbucketClientImpl :=
  { credentials := credentials
    baseUrl := match credentials.baseUrl with
      | some s => if s != "" then s else API_BASE_URL
      | none => API_BASE_URL }

-- =============================================================================
-- src/utils/formatters.ts
-- =============================================================================

/-- Response format argument (`z.enum(['json', 'markdown'])`). -/
inductive ResponseFormat where
  | json
  | markdown
deriving Repr, DecidableEq

/-- One `content` entry of a `ToolResponse`. -/
structure TextContent where
  type : String := "text"
  text : String
deriving Repr, DecidableEq

/-- The MCP `ToolResponse` shape from src/utils/formatters.ts. -/
structure ToolResponse where
  content : List TextContent
  isError : Option Bool := none
deriving Repr, DecidableEq

/-- `capitalize` from src/utils/formatters.ts. -/
def capitalize (s : String) : String :=
  match s.toList with
  | [] => ""
  | c :: rest => String.mk (c.toUpper :: rest)

/-- `formatKey` from src/utils/formatters.ts: underscores to spaces, a space
before each (ASCII) uppercase letter, first character uppercased, trimmed. -/
def formatKey (key : String) : String :=
  let step1 := key.toList.map (fun c => if c = '_' then ' ' else c)
  let step2 := step1.flatMap (fun c => if c.isUpper then [' ', c] else [c])
  let step3 : List Char :=
    match step2 with
    | [] => []
    | c :: rest => c.toUpper :: rest
  (String.mk step3).trim

/-- Type guard `isPaginatedResponse`: a non-null object with an `items`
property holding an array. -/
def isPaginatedResponse (data : Json) : Bool :=
  match data with
  | .obj fs =>
    match fs.lookup "items" with
    | some (.arr _) => true
    | _ => false
  | _ => false

/-- Property read on a value already guarded to be an object (absent keys are
`undefined`). -/
def objGet (j : Json) (key : String) : Json :=
  match j with
  | .obj fs => (fs.lookup key).getD .undefined
  | _ => .undefined

/-- Row of `formatWorkspacesTable`. -/
def wsRow (ws : Json) : Except String String := do
  let slug ← getField? ws "slug"
  let name ← getField? ws "name"
  let uuid ← getField? ws "uuid"
  .ok ("| " ++ jsToString slug ++ " | " ++ jsToString name ++ " | " ++ jsToString uuid ++ " |")

/-- `formatWorkspacesTable` from src/utils/formatters.ts. -/
def formatWorkspacesTable (workspaces : List Json) : Except String String := do
  let rows ← workspaces.mapM wsRow
  .ok (String.intercalate "\n" (["| Slug | Name | UUID |", "|---|---|---|"] ++ rows))

/-- Row of `formatRepositoriesTable`. -/
def repoRow (repo : Json) : Except String String := do
  let updatedOn ← getField? repo "updated_on"
  let updated := if jsTruthy updatedOn then localeDateString updatedOn else "-"
  let name ← getField? repo "name"
  let fullName ← getField? repo "full_name"
  let isPrivate ← getField? repo "is_private"
  let language ← getField? repo "language"
  .ok ("| " ++ jsToString name ++ " | " ++ jsToString fullName ++ " | " ++
    (if jsTruthy isPrivate then "Yes" else "No") ++ " | " ++
    jsToString (jsOr language (.str "-")) ++ " | " ++ updated ++ " |")

/-- `formatRepositoriesTable` from src/utils/formatters.ts. -/
def formatRepositoriesTable (repos : List Json) : Except String String := do
  let rows ← repos.mapM repoRow
  .ok (String.intercalate "\n"
    (["| Name | Full Name | Private | Language | Updated |", "|---|---|---|---|---|"] ++ rows))

/-- Row of `formatBranchesTable`:
`branch.target?.hash ? branch.target.hash.substring(0, 7) : '-'`. -/
def branchRow (branch : Json) : Except String String := do
  let target ← getField? branch "target"
  let hash ← getFieldOpt target "hash"
  let commitHash ← if jsTruthy hash then jsSubstringTo hash 7 else pure "-"
  let name ← getField? branch "name"
  .ok ("| " ++ jsToString name ++ " | " ++ commitHash ++ " |")

/-- `formatBranchesTable` from src/utils/formatters.ts. -/
def formatBranchesTable (branches : List Json) : Except String String := do
  let rows ← branches.mapM branchRow
  .ok (String.intercalate "\n" (["| Name | Target Commit |", "|---|---|"] ++ rows))

/-- Row of `formatCommitsTable`: hash truncated to 7,
`(commit.message || '-').split('\n')[0].substring(0, 50)`,
`commit.author?.raw || commit.author?.user?.display_name || '-'`,
`commit.date ? new Date(commit.date).toLocaleDateString() : '-'`. -/
def commitRow (commit : Json) : Except String String := do
  let hashField ← getField? commit "hash"
  let hash ← jsSubstringTo hashField 7
  let messageField ← getField? commit "message"
  let firstLine ← jsSplitFirst (jsOr messageField (.str "-")) '\n'
  let message ← jsSubstringTo (.str firstLine) 50
  let authorField ← getField? commit "author"
  let raw ← getFieldOpt authorField "raw"
  let user ← getFieldOpt authorField "user"
  let displayName ← getFieldOpt user "display_name"
  let author := jsOr raw (jsOr displayName (.str "-"))
  let dateField ← getField? commit "date"
  let date := if jsTruthy dateField then localeDateString dateField else "-"
  .ok ("| " ++ hash ++ " | " ++ message ++ " | " ++ jsToString author ++ " | " ++ date ++ " |")

/-- `formatCommitsTable` from src/utils/formatters.ts. -/
def formatCommitsTable (commits : List Json) : Except String String := do
  let rows ← commits.mapM commitRow
  .ok (String.intercalate "\n" (["| Hash | Message | Author | Date |", "|---|---|---|---|"] ++ rows))

/-- Row of `formatPullRequestsTable`:
`pr.author?.display_name || pr.author?.username || '-'` and
`${pr.source.branch.name} -> ${pr.destination.branch.name}`. -/
def prRow (pr : Json) : Except String String := do
  let authorField ← getField? pr "author"
  let displayName ← getFieldOpt authorField "display_name"
  let username ← getFieldOpt authorField "username"
  let author := jsOr displayName (jsOr username (.str "-"))
  let source ← getField? pr "source"
  let sourceBranch ← getField? source "branch"
  let sourceName ← getField? sourceBranch "name"
  let destination ← getField? pr "destination"
  let destBranch ← getField? destination "branch"
  let destName ← getField? destBranch "name"
  let branches := jsToString sourceName ++ " -> " ++ jsToString destName
  let id ← getField? pr "id"
  let title ← getField? pr "title"
  let state ← getField? pr "state"
  .ok ("| #" ++ jsToString id ++ " | " ++ jsToString title ++ " | " ++ jsToString state ++
    " | " ++ jsToString author ++ " | " ++ branches ++ " |")

/-- `formatPullRequestsTable` from src/utils/formatters.ts. -/
def formatPullRequestsTable (prs : List Json) : Except String String := do
  let rows ← prs.mapM prRow
  .ok (String.intercalate "\n"
    (["| ID | Title | State | Author | Source -> Dest |", "|---|---|---|---|---|"] ++ rows))

/-- Row of `formatIssuesTable`. -/
def issueRow (issue : Json) : Except String String := do
  let assigneeField ← getField? issue "assignee"
  let displayName ← getFieldOpt assigneeField "display_name"
  let username ← getFieldOpt assigneeField "username"
  let assignee := jsOr displayName (jsOr username (.str "-"))
  let id ← getField? issue "id"
  let title ← getField? issue "title"
  let state ← getField? issue "state"
  let priority ← getField? issue "priority"
  let kind ← getField? issue "kind"
  .ok ("| #" ++ jsToString id ++ " | " ++ jsToString title ++ " | " ++ jsToString state ++
    " | " ++ jsToString priority ++ " | " ++ jsToString kind ++ " | " ++ jsToString assignee ++ " |")

/-- `formatIssuesTable` from src/utils/formatters.ts. -/
def formatIssuesTable (issues : List Json) : Except String String := do
  let rows ← issues.mapM issueRow
  .ok (String.intercalate "\n"
    (["| ID | Title | State | Priority | Kind | Assignee |", "|---|---|---|---|---|---|"] ++ rows))

/-- Duration cell of `formatPipelinesTable`: for a truthy
`duration_in_seconds` value `n`, `Math.floor(n / 60)` minutes and `n % 60`
seconds (floor division and JS remainder for integers); a truthy non-numeric
value produces NaN arithmetic. -/
def pipelineDurationCell (dur : Json) : String :=
  if jsTruthy dur then
    match dur with
    | .num n => toString (Int.fdiv n 60) ++ "m " ++ toString (Int.tmod n 60) ++ "s"
    | _ => "NaNm NaNs"
  else "-"

/-- Row of `formatPipelinesTable`. -/
def pipelineRow (pipeline : Json) : Except String String := do
  let stateField ← getField? pipeline "state"
  let stateName ← getFieldOpt stateField "name"
  let state := jsOr stateName (.str "-")
  let targetField ← getField? pipeline "target"
  let refName ← getFieldOpt targetField "ref_name"
  let target := jsOr refName (.str "-")
  let dur ← getField? pipeline "duration_in_seconds"
  let duration := pipelineDurationCell dur
  let createdOn ← getField? pipeline "created_on"
  let created := if jsTruthy createdOn then localeDateString createdOn else "-"
  let buildNumber ← getField? pipeline "build_number"
  .ok ("| #" ++ jsToString buildNumber ++ " | " ++ jsToString state ++ " | " ++
    jsToString target ++ " | " ++ duration ++ " | " ++ created ++ " |")

/-- `formatPipelinesTable` from src/utils/formatters.ts. -/
def formatPipelinesTable (pipelines : List Json) : Except String String := do
  let rows ← pipelines.mapM pipelineRow
  .ok (String.intercalate "\n"
    (["| Build # | State | Target | Duration | Created |", "|---|---|---|---|---|"] ++ rows))

/-- Row of `formatWebhooksTable`: `webhook.events?.join(', ') || '-'`. -/
def webhookRow (webhook : Json) : Except String String := do
  let eventsField ← getField? webhook "events"
  let joined ← jsJoinOpt eventsField ", "
  let events := jsOr joined (.str "-")
  let uuid ← getField? webhook "uuid"
  let url ← getField? webhook "url"
  let active ← getField? webhook "active"
  .ok ("| " ++ jsToString uuid ++ " | " ++ jsToString url ++ " | " ++
    (if jsTruthy active then "Yes" else "No") ++ " | " ++ jsToString events ++ " |")

/-- `formatWebhooksTable` from src/utils/formatters.ts. -/
def formatWebhooksTable (webhooks : List Json) : Except String String := do
  let rows ← webhooks.mapM webhookRow
  .ok (String.intercalate "\n"
    (["| UUID | URL | Active | Events |", "|---|---|---|---|"] ++ rows))

/-- Row of `formatCommentsTable`:
`comment.user?.display_name || comment.user?.username || '-'` and
`(comment.content?.raw || '-').substring(0, 50)` (note: no first-line
split). -/
def commentRow (comment : Json) : Except String String := do
  let userField ← getField? comment "user"
  let displayName ← getFieldOpt userField "display_name"
  let username ← getFieldOpt userField "username"
  let author := jsOr displayName (jsOr username (.str "-"))
  let contentField ← getField? comment "content"
  let raw ← getFieldOpt contentField "raw"
  let contentCell ← jsSubstringTo (jsOr raw (.str "-")) 50
  let createdOn ← getField? comment "created_on"
  let created := if jsTruthy createdOn then localeDateString createdOn else "-"
  let id ← getField? comment "id"
  .ok ("| " ++ jsToString id ++ " | " ++ jsToString author ++ " | " ++ contentCell ++
    " | " ++ created ++ " |")

/-- `formatCommentsTable` from src/utils/formatters.ts. -/
def formatCommentsTable (comments : List Json) : Except String String := do
  let rows ← comments.mapM commentRow
  .ok (String.intercalate "\n"
    (["| ID | Author | Content | Created |", "|---|---|---|---|"] ++ rows))

/-- Row of `formatGenericTable`: `String(record[k] ?? '-')` per key. -/
def genericRow (keys : List String) (item : Json) : Except String String := do
  let values ← keys.mapM (fun k => do
    let v ← getField? item k
    pure (jsToString (jsNullish v (.str "-"))))
  .ok ("| " ++ String.intercalate " | " values ++ " |")

/-- `formatGenericTable` from src/utils/formatters.ts: empty list yields the
placeholder; otherwise the first 5 keys of the first item, in insertion
order, drive the columns (`Object.keys` throws when the first item is
`null`/`undefined`). -/
def formatGenericTable (items : List Json) : Except String String :=
  match items with
  | [] => .ok "_No items_"
  | first :: _ => do
    let allKeys ← jsObjectKeys first
    let keys := allKeys.take 5
    let rows ← items.mapM (genericRow keys)
    .ok (String.intercalate "\n"
      (("| " ++ String.intercalate " | " keys ++ " |") ::
        ("|" ++ String.intercalate "|" (keys.map (fun _ => "---")) ++ "|") :: rows))

/-- `formatArrayAsMarkdown` from src/utils/formatters.ts (delegates to the
generic table; the entity type is ignored). -/
def formatArrayAsMarkdown (data : List Json) (_entityType : String) : Except String String :=
  formatGenericTable data

/-- `formatObjectAsMarkdown` from src/utils/formatters.ts: heading from the
entity type with one trailing `s` stripped, then one line per entry, skipping
null/undefined values, rendering object-valued entries as fenced JSON. -/
def formatObjectAsMarkdown (fields : List (String × Json)) (entityType : String) : String :=
  let stripped := if entityType.endsWith "s" then entityType.dropRight 1 else entityType
  let lines :=
    ["## " ++ capitalize stripped, ""] ++
    fields.flatMap (fun kv =>
      match kv.2 with
      | .null => []
      | .undefined => []
      | .obj fs => ["**" ++ formatKey kv.1 ++ ":**", "```json", jsonStringify (.obj fs), "```"]
      | .arr xs => ["**" ++ formatKey kv.1 ++ ":**", "```json", jsonStringify (.arr xs), "```"]
      | v => ["**" ++ formatKey kv.1 ++ ":** " ++ jsToString v])
  String.intercalate "\n" lines

/-- `formatPaginatedAsMarkdown` from src/utils/formatters.ts: heading, count
summary (with total when defined), optional more-available marker, then the
placeholder for an empty item list or the per-entity-kind table. -/
def formatPaginatedAsMarkdown (data : Json) (entityType : String) : Except String String :=
  let total := objGet data "total"
  let count := objGet data "count"
  let hasMore := objGet data "hasMore"
  let items : List Json :=
    match objGet data "items" with
    | .arr xs => xs
    | _ => []
  let headerLines : List String :=
    ["## " ++ capitalize entityType, ""] ++
    (match total with
     | .undefined => ["**Showing:** " ++ jsToString count]
     | t => ["**Total:** " ++ jsToString t ++ " | **Showing:** " ++ jsToString count]) ++
    (if jsTruthy hasMore then ["**More available:** Yes"] else []) ++
    [""]
  if items.length = 0 then
    .ok (String.intercalate "\n" (headerLines ++ ["_No items found._"]))
  else do
    let table ←
      match entityType with
      | "workspaces" => formatWorkspacesTable items
      | "repositories" => formatRepositoriesTable items
      | "branches" => formatBranchesTable items
      | "commits" => formatCommitsTable items
      | "pullrequests" => formatPullRequestsTable items
      | "pull_requests" => formatPullRequestsTable items
      | "issues" => formatIssuesTable items
      | "pipelines" => formatPipelinesTable items
      | "webhooks" => formatWebhooksTable items
      | "comments" => formatCommentsTable items
      | _ => formatGenericTable items
    .ok (String.intercalate "\n" (headerLines ++ [table]))

/-- `formatAsMarkdown` from src/utils/formatters.ts: paginated envelopes,
then arrays, then non-null objects, then `String(data)`. -/
def formatAsMarkdown (data : Json) (entityType : String) : Except String String :=
  if isPaginatedResponse data then formatPaginatedAsMarkdown data entityType
  else
    match data with
    | .arr xs => formatArrayAsMarkdown xs entityType
    | .obj fs => .ok (formatObjectAsMarkdown fs entityType)
    | v => .ok (jsToString v)

/-- `formatResponse` from src/utils/formatters.ts: markdown mode renders via
`formatAsMarkdown` (which can throw), json mode pretty-prints the data;
neither mode ever sets `isError`. -/
def formatResponse (data : Json) (format : ResponseFormat) (entityType : String) :
    Except String ToolResponse :=
  match format with
  | .markdown =>
    match formatAsMarkdown data entityType with
    | .ok text => .ok { content := [{ text := text }] }
    | .error e => .error e
  | .json => .ok { content := [{ text := jsonStringify data }] }

/-- Modelled from the spec: `formatErrorForLogging` lives in the missing
src/utils/errors.ts; per the spec every error surfaces a one-line message
plus optional structured detail, so it is modelled as a structured rendering
of the error's kind and message. It only feeds the `details` field of the
error body; no claim depends on its value. -/
def formatErrorForLogging (error : JsError) : Json :=
  match error with
  | .authenticationError m => .obj [("kind", .str "authentication"), ("message", .str m)]
  | .rateLimitError m r =>
    .obj [("kind", .str "rate_limit"), ("message", .str m),
      ("retryAfter", match r with | some n => .num n | none => .str "NaN")]
  | .bitbucketApiError m s =>
    .obj [("kind", .str "api"), ("message", .str m), ("status", .num s)]
  | .genericError m => .obj [("kind", .str "error"), ("message", .str m)]
  | .thrownValue v => .obj [("kind", .str "unknown"), ("value", .str (jsToString v))]

/-- `formatError` from src/utils/formatters.ts: every thrown value becomes a
`ToolResponse` with `isError: true` whose text is the JSON of an
`Error: <message>` line plus logging details. (For `BitbucketApiError`
values the source appends ` (retryable)` when `error.retryable`; that flag
lives in the missing errors.ts and no claim depends on the suffix, so it is
not modelled.) -/
def formatError (error : JsError) : ToolResponse :=
  let message := "Error: " ++ error.messageText
  let body := jsonStringify
    (.obj [("error", .str message), ("details", formatErrorForLogging error)])
  { content := [{ text := body }], isError := some true }

/-- The uniform tool-handler wrapper used by every registration in
src/tools (e.g. `registerWorkspaceTools`):
`try { const result = await client.call(...); return formatResponse(result,
format, entity); } catch (error) { return formatError(error); }`. The client
call's outcome is the input; a throw inside `formatResponse` is also caught,
since the call sits inside the same try block. -/
def toolHandler (callOutcome : Except JsError Json) (format : ResponseFormat)
    (entityType : String) : ToolResponse :=
  match callOutcome with
  | .error e => formatError e
  | .ok data =>
    match formatResponse data format entityType with
    | .ok resp => resp
    | .error msg => formatError (.genericError msg)

-- =============================================================================
-- Claims C1, C2 — pagination normalizer
-- =============================================================================

/-- C1 (counterexample): the claim says `hasMore` is true if and only if the
envelope's `next` link is present; but for an envelope whose `next` field is
the (present) empty string, `!!response.next` is `false`, so
`convertPaginatedResponse` reports `hasMore = false` while the next link is
present, and even returns it as `nextCursor`. -/
theorem convertPaginatedResponse_emptyNext_hasMore_false :
    (convertPaginatedResponse
      ({ next := some "", values := [0] } : BitbucketPaginatedResponse Nat)).hasMore = false ∧
    ({ next := some "", values := [0] } : BitbucketPaginatedResponse Nat).next ≠ none ∧
    (convertPaginatedResponse
      ({ next := some "", values := [0] } : BitbucketPaginatedResponse Nat)).nextCursor = some "" := by
  refine ⟨rfl, ?_, rfl⟩
  intro h
  exact Option.noConfusion h

/-- C1 (amended): `convertPaginatedResponse` returns the envelope's `values`
as `items` unchanged, `count` equal to `items.length`, `total` equal to the
envelope's `size` (absent when it is), `nextCursor` equal to the `next` link,
and `hasMore` true if and only if the `next` link is present *and non-empty*
(JavaScript truthiness of `!!response.next`). -/
theorem convertPaginatedResponse_spec {T : Type} (r : BitbucketPaginatedResponse T) :
    (convertPaginatedResponse r).items = r.values ∧
    (convertPaginatedResponse r).count = (convertPaginatedResponse r).items.length ∧
    (convertPaginatedResponse r).total = r.size ∧
    ((convertPaginatedResponse r).hasMore = true ↔ ∃ s, r.next = some s ∧ s ≠ "") ∧
    (convertPaginatedResponse r).nextCursor = r.next := by
  refine ⟨rfl, rfl, rfl, ?_, rfl⟩
  cases h : r.next with
  | none =>
    simp [convertPaginatedResponse, jsTruthyOptStr, h]
  | some s =>
    simp [convertPaginatedResponse, jsTruthyOptStr, h]

/-- C1 (witness for the amended theorem): concrete instantiation. -/
theorem convertPaginatedResponse_spec_witness :
    (convertPaginatedResponse
      ({ next := some "https://next", size := some 5, values := [1, 2] }
        : BitbucketPaginatedResponse Nat)).hasMore = true :=
  (convertPaginatedResponse_spec
    ({ next := some "https://next", size := some 5, values := [1, 2] }
      : BitbucketPaginatedResponse Nat)).2.2.2.1.mpr ⟨"https://next", rfl, by decide⟩

/-- C2 (counterexample): the claim says building the query for
`pagelen = 150` (max 100) yields a query string containing the clamped value
`pagelen=100`; in fact `buildPaginationQuery` — which never invokes
`normalizePaginationParams` — serializes the out-of-range value verbatim:
the result is `?pagelen=150` and contains no `pagelen=100`. -/
theorem buildPaginationQuery_150_unclamped :
    buildPaginationQuery (some { pagelen := some 150 }) = "?pagelen=150" ∧
    strContains (buildPaginationQuery (some { pagelen := some 150 })) "pagelen=100" = false := by
  constructor
  · rfl
  · decide

/-- C2 (amended): `normalizePaginationParams` clamps the page size only from
above — its result never exceeds `maxPagelen`, and 150 with max 100 becomes
100 — but it is not applied on the query-building path:
`buildPaginationQuery` serializes the caller's `pagelen` verbatim, so the
query built for `pagelen = 150` is `?pagelen=150`, and negative values such
as -5 pass through `normalizePaginationParams` unclamped as well. -/
theorem buildPaginationQuery_spec :
    (∀ (params : Option PaginationParams) (maxPagelen : Int),
      (normalizePaginationParams params maxPagelen).pagelen ≤ maxPagelen) ∧
    (normalizePaginationParams (some { pagelen := some 150 }) 100).pagelen = 100 ∧
    (normalizePaginationParams (some { pagelen := some (-5) })).pagelen = -5 ∧
    buildPaginationQuery (some { pagelen := some 150 }) = "?pagelen=150" := by
  refine ⟨?_, by decide, by decide, rfl⟩
  intro params maxPagelen
  exact min_le_right _ _

-- =============================================================================
-- Claims C8, C9, C10 — client construction and authentication
-- =============================================================================

/-- C8 (counterexample): constructing a client from credentials with neither
an access token nor a username/app-password pair does not fail — the
constructor just stores the credentials and resolves the base URL — while
the authentication failure is raised later, when a call builds the auth
headers. -/
theorem createBitbucketClient_noCredentials_succeeds :
    createBitbucketClient {} =
      { credentials := {}, baseUrl := "https://api.bitbucket.org/2.0" } ∧
    getAuthHeaders {} = .error (.authenticationError
      ("No credentials provided. Include X-Bitbucket-Username + X-Bitbucket-App-Password headers, " ++
        "or X-Bitbucket-Access-Token header.")) :=
  ⟨rfl, rfl⟩

/-- C8 (amended): construction always succeeds and merely stores the
credentials (base URL defaulted); for credentials with neither mode, the
authentication failure is raised per call by `getAuthHeaders`, and — at the
worker boundary, before any client is constructed — `validateCredentials`
rejects the request by throwing a plain `Error`. -/
theorem createBitbucketClient_spec (credentials : TenantCredentials)
    (hTok : jsTruthyOptStr credentials.accessToken = false)
    (hPair : (jsTruthyOptStr credentials.username &&
      jsTruthyOptStr credentials.appPassword) = false) :
    (createBitbucketClient credentials).credentials = credentials ∧
    getAuthHeaders credentials = .error (.authenticationError
      ("No credentials provided. Include X-Bitbucket-Username + X-Bitbucket-App-Password headers, " ++
        "or X-Bitbucket-Access-Token header.")) ∧
    validateCredentials credentials = .error
      ("Missing credentials. Provide either X-Bitbucket-Username + X-Bitbucket-App-Password headers, " ++
        "or X-Bitbucket-Access-Token header.") := by
  refine ⟨rfl, ?_, ?_⟩
  · simp [getAuthHeaders, hTok, hPair]
  · simp [validateCredentials, hTok, hPair]

/-- C8 (witness): the amended theorem applied to empty credentials. -/
theorem createBitbucketClient_spec_witness :
    (createBitbucketClient {}).credentials = ({} : TenantCredentials) :=
  (createBitbucketClient_spec {} rfl rfl).1

/-- C9: for every 401 or 403 response, the thrown error is the same fixed
generic `AuthenticationError` for every choice of credentials that reaches
the call (noninterference: varying the credentials does not change the
error), and its message is the constant generic text, which contains no
credential-derived part. -/
theorem request_auth_error_noninterference
    (c₁ c₂ : TenantCredentials) (response : HttpResponse)
    (h₁ : AuthHeaders) (hc₁ : getAuthHeaders c₁ = .ok h₁)
    (h₂ : AuthHeaders) (hc₂ : getAuthHeaders c₂ = .ok h₂)
    (hs : response.status = 401 ∨ response.status = 403) :
    request c₁ response = request c₂ response ∧
    request c₁ response = .error (.authenticationError
      "Authentication failed. Check your Bitbucket credentials.") := by
  have key : ∀ (c : TenantCredentials) (h : AuthHeaders), getAuthHeaders c = .ok h →
      request c response = .error (.authenticationError
        "Authentication failed. Check your Bitbucket credentials.") := by
    intro c h hc
    unfold request
    rw [hc]
    rcases hs with h401 | h403
    · simp [h401, bind, Except.bind]
    · simp [h403, bind, Except.bind]
  have e₁ := key c₁ h₁ hc₁
  have e₂ := key c₂ h₂ hc₂
  exact ⟨e₁.trans e₂.symm, e₁⟩

/-- C9 (witness): bearer credentials versus basic credentials on a 403. -/
theorem request_auth_error_noninterference_witness :
    request { accessToken := some "secret-token-1" } { status := 403 } =
      request { username := some "alice", appPassword := some "hunter2" } { status := 403 } :=
  (request_auth_error_noninterference
    { accessToken := some "secret-token-1" }
    { username := some "alice", appPassword := some "hunter2" }
    { status := 403 }
    _ rfl
    _ rfl
    (Or.inr rfl)).1

/-- C10: when an access token is supplied (a non-empty token, together with
any username and app password), `getAuthHeaders` returns the Bearer header
built from the token — the basic pair is ignored — and the Basic branch is
taken exactly when the access token is absent or empty while both basic
credentials are truthy. -/
theorem getAuthHeaders_bearer_precedence (credentials : TenantCredentials) (t : String)
    (hTok : credentials.accessToken = some t) (hNe : t ≠ "") :
    getAuthHeaders credentials = .ok { authorization := "Bearer " ++ t } ∧
    (∀ c₂ : TenantCredentials, jsTruthyOptStr c₂.accessToken = false →
      jsTruthyOptStr c₂.username = true → jsTruthyOptStr c₂.appPassword = true →
      getAuthHeaders c₂ =
        .ok { authorization := "Basic " ++ btoa (c₂.username.getD "" ++ ":" ++ c₂.appPassword.getD "") }) := by
  constructor
  · simp [getAuthHeaders, jsTruthyOptStr, hTok, hNe]
  · intro c₂ hTok₂ hU hP
    simp [getAuthHeaders, hTok₂, hU, hP]

/-- C10 (witness): both modes supplied at once — the Bearer header wins. -/
theorem getAuthHeaders_bearer_precedence_witness :
    getAuthHeaders { accessToken := some "tok", username := some "u", appPassword := some "p" } =
      .ok { authorization := "Bearer tok" } :=
  (getAuthHeaders_bearer_precedence
    { accessToken := some "tok", username := some "u", appPassword := some "p" }
    "tok" rfl (by decide)).1

-- =============================================================================
-- Claim C3 — tool handlers never leak exceptions
-- =============================================================================

/-- C3: every tool invocation terminates in a `ToolResponse` (the handler is
a total function): when the underlying client call throws — an
`AuthenticationError`, `RateLimitError`, `BitbucketApiError` or any other
value — the handler returns `formatError` of it, which carries
`isError = true`; when the call succeeds and formatting succeeds, the
handler returns the formatted response, which carries no error flag. -/
theorem toolHandler_total :
    (∀ (e : JsError) (format : ResponseFormat) (entityType : String),
      toolHandler (.error e) format entityType = formatError e ∧
      (formatError e).isError = some true) ∧
    (∀ (data : Json) (format : ResponseFormat) (entityType : String) (resp : ToolResponse),
      formatResponse data format entityType = .ok resp →
      toolHandler (.ok data) format entityType = resp ∧ resp.isError = none) := by
  constructor
  · intro e format entityType
    exact ⟨rfl, rfl⟩
  · intro data format entityType resp h
    constructor
    · simp [toolHandler, h]
    · cases format with
      | json =>
        simp [formatResponse] at h
        simp [← h]
      | markdown =>
        rcases hm : formatAsMarkdown data entityType with e | t
        · simp [formatResponse, hm] at h
        · simp [formatResponse, hm] at h
          simp [← h]

/-- C3 (witness): a thrown error and a successful JSON-mode call. -/
theorem toolHandler_total_witness :
    toolHandler (.error (.genericError "boom")) .json "workspaces" =
      formatError (.genericError "boom") ∧
    (formatError (.genericError "boom")).isError = some true ∧
    toolHandler (.ok (Json.num 1)) .json "workspaces" = { content := [{ text := "1" }] } ∧
    ({ content := [{ text := "1" }] } : ToolResponse).isError = none := by
  refine ⟨(toolHandler_total.1 (.genericError "boom") .json "workspaces").1,
    (toolHandler_total.1 (.genericError "boom") .json "workspaces").2, ?_, ?_⟩
  · exact (toolHandler_total.2 (Json.num 1) .json "workspaces" _ rfl).1
  · exact (toolHandler_total.2 (Json.num 1) .json "workspaces" _ rfl).2

-- =============================================================================
-- Claim C5 — 429 rate-limit classification
-- =============================================================================

/-- C5 (counterexample): the claim says an unparseable `Retry-After` header
defaults to 60; in fact a present, non-empty, unparseable header value such
as `abc` is fed to `Number.parseInt`, whose `NaN` result (modelled `none`)
is stored — not 60. -/
theorem request_429_unparseable_retryAfter :
    request { accessToken := some "t" } { status := 429, retryAfterHeader := some "abc" } =
      .error (.rateLimitError "Rate limit exceeded" none) ∧
    (none : Option Int) ≠ some 60 := by
  exact ⟨rfl, by decide⟩

/-- C5 (amended): every 429 response raises a `RateLimitError` whose
retry-after value is `Number.parseInt(header, 10)` for a present non-empty
`Retry-After` header (so `30` yields 30 but an unparseable value yields NaN,
not 60), and 60 when the header is absent or empty; the formatted error
envelope carries `isError = true`. -/
theorem request_rateLimit_spec (credentials : TenantCredentials) (response : HttpResponse)
    (h : AuthHeaders) (hc : getAuthHeaders credentials = .ok h)
    (hs : response.status = 429) :
    ∃ v, request credentials response = .error (.rateLimitError "Rate limit exceeded" v) ∧
      (formatError (.rateLimitError "Rate limit exceeded" v)).isError = some true ∧
      (response.retryAfterHeader = none → v = some 60) ∧
      (response.retryAfterHeader = some "" → v = some 60) ∧
      (∀ s, response.retryAfterHeader = some s → s ≠ "" → v = jsParseInt s) ∧
      jsParseInt "30" = some 30 ∧
      jsParseInt "abc" = none := by
  refine ⟨retryAfterValue response.retryAfterHeader, ?_, rfl, ?_, ?_, ?_, by decide, by decide⟩
  · unfold request
    rw [hc]
    simp [hs]
  · intro hh
    simp [retryAfterValue, hh]
  · intro hh
    simp [retryAfterValue, hh]
  · intro s hh hne
    simp [retryAfterValue, hh, hne]

/-- C5 (witness): a 429 with `Retry-After: 30` under bearer credentials. -/
theorem request_rateLimit_spec_witness :
    ∃ v, request { accessToken := some "t" } { status := 429, retryAfterHeader := some "30" } =
      .error (.rateLimitError "Rate limit exceeded" v) ∧
      (formatError (.rateLimitError "Rate limit exceeded" v)).isError = some true ∧
      (some "30" = some "" → v = some 60) ∧
      v = jsParseInt "30" := by
  rcases request_rateLimit_spec { accessToken := some "t" }
      { status := 429, retryAfterHeader := some "30" } _ rfl rfl with
    ⟨v, hreq, hflag, _, hempty, hparse, _, _⟩
  exact ⟨v, hreq, hflag, fun hh => hempty (by simp at hh), hparse "30" rfl (by decide)⟩

-- =============================================================================
-- Claim C4 — formatter totality
-- =============================================================================

/-- C4 (counterexample): the claim says `formatResponse` never throws for any
JSON-like input, including arrays whose first element is not an object; in
fact markdown mode on the array `[null]` reaches
`Object.keys(items[0])` in `formatGenericTable`, which throws a TypeError. -/
theorem formatResponse_arrayNull_throws :
    formatResponse (Json.arr [Json.null]) .markdown "files" =
      .error "TypeError: Cannot convert undefined or null to object" := rfl

/-- C4 (amended): `formatResponse` is total in json mode for every input; in
markdown mode it is total for every input that is neither an array nor a
paginated envelope, but on collections it can throw when per-item rendering
dereferences `null`/`undefined` items (e.g. a generic table whose first item
is `null`) or missing required entity fields. -/
theorem formatResponse_total_spec :
    (∀ (data : Json) (entityType : String),
      formatResponse data .json entityType = .ok { content := [{ text := jsonStringify data }] }) ∧
    (∀ (data : Json) (entityType : String), isPaginatedResponse data = false →
      (∀ xs, data ≠ .arr xs) →
      ∃ r, formatResponse data .markdown entityType = .ok r) := by
  constructor
  · intro data entityType
    rfl
  · intro data entityType hpag harr
    cases data with
    | undefined => exact ⟨_, rfl⟩
    | null => exact ⟨_, rfl⟩
    | bool b => exact ⟨_, rfl⟩
    | num n => exact ⟨_, rfl⟩
    | str s => exact ⟨_, rfl⟩
    | arr xs => exact absurd rfl (harr xs)
    | obj fs =>
      refine ⟨{ content := [{ text := formatObjectAsMarkdown fs entityType }] }, ?_⟩
      simp [formatResponse, formatAsMarkdown, hpag]

/-- C4 (witness): a scalar and a plain object in both modes. -/
theorem formatResponse_total_spec_witness :
    formatResponse (Json.num 5) .json "x" = .ok { content := [{ text := "5" }] } ∧
    ∃ r, formatResponse (Json.obj [("a", Json.num 1)]) .markdown "x" = .ok r := by
  constructor
  · exact formatResponse_total_spec.1 (Json.num 5) "x"
  · exact formatResponse_total_spec.2 (Json.obj [("a", Json.num 1)]) "x" rfl
      (fun xs h => Json.noConfusion h)

-- =============================================================================
-- Typed entity families for the table claims (C6, C7): well-typed members of
-- the Account / Author / Commit / Comment / PullRequest interfaces of
-- src/types/entities.ts, together with their JSON representations.
-- =============================================================================

/-- A list segment for one optional string-valued interface field. -/
def optStrField (key : String) (v : Option String) : List (String × Json) :=
  match v with
  | some s => [(key, Json.str s)]
  | none => []

/-- Typed member of the `Account` interface (the fields the tables read). -/
structure AccountData where
  uuid : String := ""
  display_name : Option String := none
  username : Option String := none
deriving Repr, DecidableEq

/-- JSON representation of an `Account`. -/
def accountJson (a : AccountData) : Json :=
  Json.obj ([("type", Json.str "user"), ("uuid", Json.str a.uuid)] ++
    optStrField "display_name" a.display_name ++ optStrField "username" a.username)

/-- Typed member of the `Author` interface. -/
structure AuthorData where
  raw : Option String := none
  user : Option AccountData := none
deriving Repr, DecidableEq

/-- JSON representation of an `Author`. -/
def authorJson (a : AuthorData) : Json :=
  Json.obj ([("type", Json.str "author")] ++ optStrField "raw" a.raw ++
    (match a.user with | some u => [("user", accountJson u)] | none => []))

/-- Typed member of the `Commit` interface (the fields the table reads). -/
structure CommitData where
  hash : String
  message : Option String := none
  author : Option AuthorData := none
  date : Option String := none
deriving Repr, DecidableEq

/-- JSON representation of a `Commit`. -/
def commitJson (c : CommitData) : Json :=
  Json.obj ([("type", Json.str "commit"), ("hash", Json.str c.hash)] ++
    optStrField "message" c.message ++
    (match c.author with | some a => [("author", authorJson a)] | none => []) ++
    optStrField "date" c.date)

/-- Typed member of the `Comment` interface's `content` field. -/
structure ContentData where
  raw : Option String := none
deriving Repr, DecidableEq

/-- Typed member of the `Comment` interface (the fields the table reads). -/
structure CommentData where
  id : Int
  content : Option ContentData := none
  user : Option AccountData := none
  created_on : Option String := none
deriving Repr, DecidableEq

/-- JSON representation of a `Comment`. -/
def commentJson (c : CommentData) : Json :=
  Json.obj ([("type", Json.str "pullrequest_comment"), ("id", Json.num c.id)] ++
    (match c.content with
     | some cd => [("content", Json.obj (optStrField "raw" cd.raw))]
     | none => []) ++
    (match c.user with | some u => [("user", accountJson u)] | none => []) ++
    optStrField "created_on" c.created_on)

/-- Typed member of the `PullRequest` interface (the fields the table
reads; `source`/`destination` carry their required branch names). -/
structure PRData where
  id : Int
  title : String
  state : String
  author : Option AccountData := none
  sourceBranch : String
  destBranch : String
deriving Repr, DecidableEq

/-- JSON representation of a `PullRequest`. -/
def prJson (p : PRData) : Json :=
  Json.obj ([("type", Json.str "pullrequest"), ("id", Json.num p.id),
    ("title", Json.str p.title), ("state", Json.str p.state)] ++
    (match p.author with | some a => [("author", accountJson a)] | none => []) ++
    [("source", Json.obj [("branch", Json.obj [("name", Json.str p.sourceBranch)])]),
     ("destination", Json.obj [("branch", Json.obj [("name", Json.str p.destBranch)])])])

-- =============================================================================
-- Spec-side cell formulas (the plain-language rendering rules, stated
-- independently of the implementation).
-- =============================================================================

/-- First `n` characters of a string. -/
def takeChars (s : String) (n : Nat) : String := String.mk (s.toList.take n)

/-- Text before the first newline. -/
def firstLineOf (s : String) : String := String.mk (s.toList.takeWhile (· != '\n'))

/-- The string if present and non-empty, else the fallback. -/
def orElseStr (o : Option String) (fallback : String) : String :=
  match o with
  | some s => if s = "" then fallback else s
  | none => fallback

/-- Spec formula for a commit's Message cell: first line only, then truncated
to 50 characters (`-` when absent or empty). -/
def commitMessageCellSpec (message : Option String) : String :=
  takeChars (firstLineOf (orElseStr message "-")) 50

/-- Spec formula for a commit's Author cell: the raw author string is
preferred, the author's user display name is the fallback, else `-`. -/
def commitAuthorCellSpec (author : Option AuthorData) : String :=
  match author with
  | none => "-"
  | some a => orElseStr a.raw
      (match a.user with
       | none => "-"
       | some u => orElseStr u.display_name "-")

/-- Spec formula for a date-like cell: locale-rendered date when present and
non-empty, else `-`. -/
def dateCellSpec (date : Option String) : String :=
  match date with
  | some d => if d = "" then "-" else localeDateString (Json.str d)
  | none => "-"

/-- Spec formula for a user-like cell: display name preferred, username as
fallback, else `-`. -/
def userCellSpec (user : Option AccountData) : String :=
  match user with
  | none => "-"
  | some u => orElseStr u.display_name (orElseStr u.username "-")

/-- Spec formula for a comment's Content cell: truncated to 50 characters
with no first-line restriction (embedded newlines are kept). -/
def commentContentCellSpec (content : Option ContentData) : String :=
  takeChars (orElseStr (content.bind (fun cd => cd.raw)) "-") 50

/-- Spec formula for one commit table row. -/
def commitRowSpec (c : CommitData) : String :=
  "| " ++ takeChars c.hash 7 ++ " | " ++ commitMessageCellSpec c.message ++ " | " ++
    commitAuthorCellSpec c.author ++ " | " ++ dateCellSpec c.date ++ " |"

/-- Spec formula for one comment table row. -/
def commentRowSpec (c : CommentData) : String :=
  "| " ++ toString c.id ++ " | " ++ userCellSpec c.user ++ " | " ++
    commentContentCellSpec c.content ++ " | " ++ dateCellSpec c.created_on ++ " |"

/-- Spec formula for one pull-request table row. -/
def prRowSpec (p : PRData) : String :=
  "| #" ++ toString p.id ++ " | " ++ p.title ++ " | " ++ p.state ++ " | " ++
    userCellSpec p.author ++ " | " ++ p.sourceBranch ++ " -> " ++ p.destBranch ++ " |"

-- =============================================================================
-- Helper lemmas for the table claims
-- =============================================================================

/-- Bind of a successful `Except` computation reduces. -/
theorem exceptOk_bind {ε α β : Type} (a : α) (f : α → Except ε β) :
    (Except.ok a : Except ε α) >>= f = f a := rfl

/-- Optional chaining on an object behaves like plain access. -/
theorem getFieldOpt_obj (fs : List (String × Json)) (key : String) :
    getFieldOpt (.obj fs) key = getField? (.obj fs) key := rfl

/-- Optional chaining on `undefined` yields `undefined`. -/
theorem getFieldOpt_undefined (key : String) : getFieldOpt .undefined key = .ok .undefined := rfl

/-- Field access on commit JSON: `hash`. -/
theorem getField_commitJson_hash (c : CommitData) :
    getField? (commitJson c) "hash" = .ok (.str c.hash) := rfl

/-- Field access on commit JSON: `message`. -/
theorem getField_commitJson_message (c : CommitData) :
    getField? (commitJson c) "message" =
      .ok (match c.message with | some m => .str m | none => .undefined) := by
  rcases c with ⟨hash, message, author, date⟩
  cases message <;> cases author <;> cases date <;> rfl

/-- Field access on commit JSON: `author`. -/
theorem getField_commitJson_author (c : CommitData) :
    getField? (commitJson c) "author" =
      .ok (match c.author with | some a => authorJson a | none => .undefined) := by
  rcases c with ⟨hash, message, author, date⟩
  cases message <;> cases author <;> cases date <;> rfl

/-- Field access on commit JSON: `date`. -/
theorem getField_commitJson_date (c : CommitData) :
    getField? (commitJson c) "date" =
      .ok (match c.date with | some d => .str d | none => .undefined) := by
  rcases c with ⟨hash, message, author, date⟩
  cases message <;> cases author <;> cases date <;> rfl

/-- Field access on author JSON: `raw`. -/
theorem getField_authorJson_raw (a : AuthorData) :
    getField? (authorJson a) "raw" =
      .ok (match a.raw with | some r => .str r | none => .undefined) := by
  rcases a with ⟨raw, user⟩
  cases raw <;> cases user <;> rfl

/-- Field access on author JSON: `user`. -/
theorem getField_authorJson_user (a : AuthorData) :
    getField? (authorJson a) "user" =
      .ok (match a.user with | some u => accountJson u | none => .undefined) := by
  rcases a with ⟨raw, user⟩
  cases raw <;> cases user <;> rfl

/-- Field access on account JSON: `display_name`. -/
theorem getField_accountJson_displayName (u : AccountData) :
    getField? (accountJson u) "display_name" =
      .ok (match u.display_name with | some s => .str s | none => .undefined) := by
  rcases u with ⟨uuid, dn, un⟩
  cases dn <;> cases un <;> rfl

/-- Field access on account JSON: `username`. -/
theorem getField_accountJson_username (u : AccountData) :
    getField? (accountJson u) "username" =
      .ok (match u.username with | some s => .str s | none => .undefined) := by
  rcases u with ⟨uuid, dn, un⟩
  cases dn <;> cases un <;> rfl

/-- The display-name-then-username fallback chain evaluates to the spec's
user cell. -/
theorem jsOr_account (u : AccountData) :
    jsOr (match u.display_name with | some s => Json.str s | none => .undefined)
      (jsOr (match u.username with | some s => Json.str s | none => .undefined) (.str "-")) =
      .str (orElseStr u.display_name (orElseStr u.username "-")) := by
  rcases u with ⟨uuid, dn, un⟩
  cases dn with
  | none =>
    cases un with
    | none => rfl
    | some s =>
      by_cases h : s = "" <;> simp [jsOr, jsTruthy, orElseStr, h]
  | some s =>
    by_cases h : s = ""
    · subst h
      cases un with
      | none => rfl
      | some t => by_cases ht : t = "" <;> simp [jsOr, jsTruthy, orElseStr, ht]
    · simp [jsOr, jsTruthy, orElseStr, h]

/-- The raw-then-display-name fallback chain evaluates to the spec's commit
author cell. -/
theorem jsOr_author (a : AuthorData) :
    jsOr (match a.raw with | some r => Json.str r | none => .undefined)
      (jsOr (match a.user with
         | some u => (match u.display_name with | some s => Json.str s | none => .undefined)
         | none => Json.undefined) (.str "-")) =
      .str (commitAuthorCellSpec (some a)) := by
  rcases a with ⟨raw, user⟩
  cases raw with
  | none =>
    cases user with
    | none => rfl
    | some u =>
      rcases u with ⟨uuid, dn, un⟩
      cases dn with
      | none => rfl
      | some s =>
        by_cases h : s = "" <;>
          simp [jsOr, jsTruthy, commitAuthorCellSpec, orElseStr, h]
  | some r =>
    by_cases h : r = ""
    · subst h
      cases user with
      | none => simp [jsOr, jsTruthy, commitAuthorCellSpec, orElseStr]
      | some u =>
        rcases u with ⟨uuid, dn, un⟩
        cases dn with
        | none => simp [jsOr, jsTruthy, commitAuthorCellSpec, orElseStr]
        | some s =>
          by_cases hs : s = "" <;>
            simp [jsOr, jsTruthy, commitAuthorCellSpec, orElseStr, hs]
    · simp [jsOr, jsTruthy, commitAuthorCellSpec, orElseStr, h]

/-- Substring of a string value reduces to a character take. -/
theorem jsSubstringTo_str (s : String) (n : Nat) :
    jsSubstringTo (.str s) n = .ok (takeChars s n) := rfl

/-- `String(x)` of a string value. -/
theorem jsToString_str (s : String) : jsToString (Json.str s) = s := rfl

/-- `a || b` with a falsy left operand. -/
theorem jsOr_undefined (b : Json) : jsOr .undefined b = b := rfl

/-- Optional chaining into an author object. -/
theorem getFieldOpt_authorJson (a : AuthorData) (key : String) :
    getFieldOpt (authorJson a) key = getField? (authorJson a) key := rfl

/-- Optional chaining into an account object. -/
theorem getFieldOpt_accountJson (u : AccountData) (key : String) :
    getFieldOpt (accountJson u) key = getField? (accountJson u) key := rfl

/-- The message pipeline `(message || '-').split('\n')[0]` evaluates to the
first line of the spec's defaulted message. -/
theorem jsSplitFirst_message (message : Option String) :
    jsSplitFirst (jsOr (match message with | some m => Json.str m | none => .undefined)
      (.str "-")) '\n' = .ok (firstLineOf (orElseStr message "-")) := by
  cases message with
  | none => rfl
  | some m =>
    by_cases h : m = "" <;>
      simp [jsOr, jsTruthy, jsSplitFirst, orElseStr, firstLineOf, h]

/-- The ternary date rendering evaluates to the spec's date cell. -/
theorem dateTernary_spec (date : Option String) :
    (if jsTruthy (match date with | some d => Json.str d | none => Json.undefined) then
      localeDateString (match date with | some d => Json.str d | none => Json.undefined)
     else "-") = dateCellSpec date := by
  cases date with
  | none => rfl
  | some d => by_cases h : d = "" <;> simp [jsTruthy, dateCellSpec, h]

/-- One commit row renders per the spec formulas. -/
theorem commitRow_spec (c : CommitData) :
    commitRow (commitJson c) = .ok (commitRowSpec c) := by
  cases hA : c.author with
  | none =>
    simp only [commitRow, getField_commitJson_hash, getField_commitJson_message,
      getField_commitJson_author, getField_commitJson_date, hA, exceptOk_bind,
      jsSubstringTo_str, jsSplitFirst_message, getFieldOpt_undefined, jsOr_undefined,
      dateTernary_spec, jsToString_str, commitRowSpec, commitMessageCellSpec,
      commitAuthorCellSpec]
  | some a =>
    simp only [commitRow, getField_commitJson_hash, getField_commitJson_message,
      getField_commitJson_author, getField_commitJson_date, hA, exceptOk_bind,
      jsSubstringTo_str, jsSplitFirst_message, getFieldOpt_authorJson,
      getField_authorJson_raw, getField_authorJson_user, dateTernary_spec,
      commitRowSpec, commitMessageCellSpec]
    cases hU : a.user with
    | none =>
      simp only [getFieldOpt_undefined, exceptOk_bind]
      have := jsOr_author a
      rw [hU] at this
      simp only [this, jsToString_str]
    | some u =>
      simp only [getFieldOpt_accountJson, getField_accountJson_displayName, exceptOk_bind]
      have := jsOr_author a
      rw [hU] at this
      simp only [this, jsToString_str]

/-- `String(x)` of a numeric value. -/
theorem jsToString_num (n : Int) : jsToString (Json.num n) = toString n := rfl

/-- Field access on comment JSON: `id`. -/
theorem getField_commentJson_id (c : CommentData) :
    getField? (commentJson c) "id" = .ok (.num c.id) := rfl

/-- Field access on comment JSON: `content`. -/
theorem getField_commentJson_content (c : CommentData) :
    getField? (commentJson c) "content" =
      .ok (match c.content with
        | some cd => Json.obj (optStrField "raw" cd.raw)
        | none => .undefined) := by
  rcases c with ⟨id, content, user, created⟩
  cases content <;> cases user <;> cases created <;> rfl

/-- Field access on comment JSON: `user`. -/
theorem getField_commentJson_user (c : CommentData) :
    getField? (commentJson c) "user" =
      .ok (match c.user with | some u => accountJson u | none => .undefined) := by
  rcases c with ⟨id, content, user, created⟩
  cases content <;> cases user <;> cases created <;> rfl

/-- Field access on comment JSON: `created_on`. -/
theorem getField_commentJson_createdOn (c : CommentData) :
    getField? (commentJson c) "created_on" =
      .ok (match c.created_on with | some d => .str d | none => .undefined) := by
  rcases c with ⟨id, content, user, created⟩
  cases content <;> cases user <;> cases created <;> rfl

/-- Field access on a comment's content object: `raw`. -/
theorem getField_contentJson_raw (cd : ContentData) :
    getField? (Json.obj (optStrField "raw" cd.raw)) "raw" =
      .ok (match cd.raw with | some r => .str r | none => .undefined) := by
  cases h : cd.raw <;> simp [h, optStrField, getField?, List.lookup]

/-- Optional chaining into a content object. -/
theorem getFieldOpt_contentJson (cd : ContentData) (key : String) :
    getFieldOpt (Json.obj (optStrField "raw" cd.raw)) key =
      getField? (Json.obj (optStrField "raw" cd.raw)) key := rfl

/-- The content pipeline `(content?.raw || '-').substring(0, 50)` evaluates
to the spec's comment content cell. -/
theorem contentChain_spec (content : Option ContentData) :
    jsSubstringTo (jsOr (match content with
        | some cd => (match cd.raw with | some r => Json.str r | none => Json.undefined)
        | none => Json.undefined) (.str "-")) 50 = .ok (commentContentCellSpec content) := by
  cases content with
  | none => rfl
  | some cd =>
    cases h : cd.raw with
    | none => simp [h, jsOr, jsTruthy, jsSubstringTo, commentContentCellSpec, orElseStr, takeChars]
    | some r =>
      by_cases hr : r = "" <;>
        simp [h, hr, jsOr, jsTruthy, jsSubstringTo, commentContentCellSpec, orElseStr, takeChars]

/-- The content pipeline for a present content object evaluates to the
spec's comment content cell. -/
theorem contentChain_some (cd : ContentData) :
    jsSubstringTo (jsOr (match cd.raw with | some r => Json.str r | none => Json.undefined)
      (.str "-")) 50 = .ok (commentContentCellSpec (some cd)) := by
  cases h : cd.raw with
  | none =>
    simp [h, jsOr, jsTruthy, jsSubstringTo, commentContentCellSpec, orElseStr]
    all_goals decide
  | some r =>
    by_cases hr : r = "" <;>
      simp [h, hr, jsOr, jsTruthy, jsSubstringTo, commentContentCellSpec, orElseStr, takeChars]

/-- One comment row renders per the spec formulas. -/
theorem commentRow_spec (c : CommentData) :
    commentRow (commentJson c) = .ok (commentRowSpec c) := by
  cases hU : c.user <;> cases hC : c.content <;>
    simp only [commentRow, getField_commentJson_id, getField_commentJson_content,
      getField_commentJson_user, getField_commentJson_createdOn, hU, hC, exceptOk_bind,
      getFieldOpt_undefined, getFieldOpt_accountJson, getFieldOpt_contentJson,
      getField_accountJson_displayName, getField_accountJson_username,
      getField_contentJson_raw, jsOr_undefined, contentChain_some] <;>
    simp [commentRowSpec, userCellSpec, commentContentCellSpec, orElseStr, hU, hC,
      jsOr_account, dateTernary_spec, jsToString_str, jsToString_num, jsSubstringTo_str,
      exceptOk_bind, takeChars]

/-- Field access on pull-request JSON: `id`. -/
theorem getField_prJson_id (p : PRData) : getField? (prJson p) "id" = .ok (.num p.id) := rfl

/-- Field access on pull-request JSON: `title`. -/
theorem getField_prJson_title (p : PRData) :
    getField? (prJson p) "title" = .ok (.str p.title) := rfl

/-- Field access on pull-request JSON: `state`. -/
theorem getField_prJson_state (p : PRData) :
    getField? (prJson p) "state" = .ok (.str p.state) := rfl

/-- Field access on pull-request JSON: `author`. -/
theorem getField_prJson_author (p : PRData) :
    getField? (prJson p) "author" =
      .ok (match p.author with | some u => accountJson u | none => .undefined) := by
  rcases p with ⟨id, title, state, author, src, dst⟩
  cases author <;> rfl

/-- Field access on pull-request JSON: `source`. -/
theorem getField_prJson_source (p : PRData) :
    getField? (prJson p) "source" =
      .ok (Json.obj [("branch", Json.obj [("name", Json.str p.sourceBranch)])]) := by
  rcases p with ⟨id, title, state, author, src, dst⟩
  cases author <;> rfl

/-- Field access on pull-request JSON: `destination`. -/
theorem getField_prJson_destination (p : PRData) :
    getField? (prJson p) "destination" =
      .ok (Json.obj [("branch", Json.obj [("name", Json.str p.destBranch)])]) := by
  rcases p with ⟨id, title, state, author, src, dst⟩
  cases author <;> rfl

/-- Field access on a pull-request endpoint: `branch`. -/
theorem getField_endpoint_branch (s : String) :
    getField? (Json.obj [("branch", Json.obj [("name", Json.str s)])]) "branch" =
      .ok (Json.obj [("name", Json.str s)]) := rfl

/-- Field access on a branch object: `name`. -/
theorem getField_branch_name (s : String) :
    getField? (Json.obj [("name", Json.str s)]) "name" = .ok (.str s) := rfl

/-- One pull-request row renders per the spec formulas. -/
theorem prRow_spec (p : PRData) :
    prRow (prJson p) = .ok (prRowSpec p) := by
  cases hU : p.author <;>
    simp only [prRow, getField_prJson_id, getField_prJson_title, getField_prJson_state,
      getField_prJson_author, getField_prJson_source, getField_prJson_destination,
      getField_endpoint_branch, getField_branch_name, hU, exceptOk_bind,
      getFieldOpt_undefined, getFieldOpt_accountJson,
      getField_accountJson_displayName, getField_accountJson_username, jsOr_undefined] <;>
    simp [prRowSpec, userCellSpec, orElseStr, hU, jsOr_account,
      jsToString_str, jsToString_num, String.append_assoc]

/-- Accumulator form: the row-collection loop over represented entities. -/
theorem mapMloop_rows {A : Type} (f : Json → Except String String) (g : A → Json)
    (h : A → String) (hrow : ∀ a, f (g a) = .ok (h a)) :
    ∀ (l : List A) (acc : List String),
      List.mapM.loop f (l.map g) acc = .ok (acc.reverse ++ l.map h) := by
  intro l
  induction l with
  | nil =>
    intro acc
    show pure acc.reverse = Except.ok (acc.reverse ++ [])
    simp
    rfl
  | cons a t ih =>
    intro acc
    simp only [List.map_cons, List.mapM.loop, hrow, exceptOk_bind, ih (h a :: acc)]
    simp

/-- Mapping a row renderer over represented entities collects all rows. -/
theorem mapM_rows {A : Type} (f : Json → Except String String) (g : A → Json)
    (h : A → String) (hrow : ∀ a, f (g a) = .ok (h a)) :
    ∀ l : List A, (l.map g).mapM f = .ok (l.map h) := by
  intro l
  have := mapMloop_rows f g h hrow l []
  simpa [List.mapM] using this

-- =============================================================================
-- Claim C6 — commit/comment cell rendering
-- =============================================================================

/-- C6 (counterexample): the claim says both commit message and comment body
cells are first-line-only and that author cells prefer the display name; in
fact a comment body keeps its embedded newline (`first\nsecond` renders
whole, not as `first`), and a commit author cell renders the raw author
string even when a display name is present. -/
theorem commentsTable_newline_commitAuthor_raw :
    formatCommentsTable [Json.obj [("id", Json.num 1),
        ("user", Json.obj [("display_name", Json.str "Dana")]),
        ("content", Json.obj [("raw", Json.str "first\nsecond")])]] =
      .ok "| ID | Author | Content | Created |\n|---|---|---|---|\n| 1 | Dana | first\nsecond | - |" ∧
    ("first\nsecond" : String) ≠ "first" ∧
    formatCommitsTable [Json.obj [("hash", Json.str "abc1234"),
        ("author", Json.obj [("raw", Json.str "Raw Author"),
          ("user", Json.obj [("display_name", Json.str "Display Name")])])]] =
      .ok "| Hash | Message | Author | Date |\n|---|---|---|---|\n| abc1234 | - | Raw Author | - |" ∧
    ("Raw Author" : String) ≠ "Display Name" := by
  refine ⟨rfl, by decide, rfl, by decide⟩

/-- C6 (amended): in tabular mode, a commit's Message cell is the first line
truncated to 50 characters and its Author cell prefers the raw author
string, falling back to the user display name, else `-`; a comment's Content
cell is truncated to 50 characters with no first-line restriction, and its
Author cell prefers the display name, falling back to username, else `-`;
absent values render `-`; dates render via the locale date formatter. -/
theorem commitsCommentsTables_spec :
    (∀ cs : List CommitData, formatCommitsTable (cs.map commitJson) =
      .ok (String.intercalate "\n"
        (["| Hash | Message | Author | Date |", "|---|---|---|---|"] ++ cs.map commitRowSpec))) ∧
    (∀ xs : List CommentData, formatCommentsTable (xs.map commentJson) =
      .ok (String.intercalate "\n"
        (["| ID | Author | Content | Created |", "|---|---|---|---|"] ++ xs.map commentRowSpec))) := by
  constructor
  · intro cs
    unfold formatCommitsTable
    rw [mapM_rows commitRow commitJson commitRowSpec commitRow_spec cs]
    rfl
  · intro xs
    unfold formatCommentsTable
    rw [mapM_rows commentRow commentJson commentRowSpec commentRow_spec xs]
    rfl

-- =============================================================================
-- Claim C7 — pull-request table shape
-- =============================================================================

/-- C7: for every non-empty list of pull requests, the tabular rendering is a
markdown table whose header row has exactly the columns ID, Title, State,
Author, Source -> Dest, with exactly one row per pull request, in input
order; and the paginated markdown formatter dispatches a `pullrequests`
collection to exactly that table. -/
theorem pullRequestsTable_spec (prs : List PRData) (hne : prs ≠ []) :
    formatPullRequestsTable (prs.map prJson) =
      .ok (String.intercalate "\n"
        (["| ID | Title | State | Author | Source -> Dest |", "|---|---|---|---|---|"] ++
          prs.map prRowSpec)) ∧
    formatPaginatedAsMarkdown
      (Json.obj [("items", Json.arr (prs.map prJson)), ("count", Json.num prs.length),
        ("hasMore", Json.bool false)]) "pullrequests" =
      .ok (String.intercalate "\n"
        (["## Pullrequests", "", "**Showing:** " ++ toString (prs.length : Int), ""] ++
          [String.intercalate "\n"
            (["| ID | Title | State | Author | Source -> Dest |", "|---|---|---|---|---|"] ++
              prs.map prRowSpec)])) := by
  have hrows := mapM_rows prRow prJson prRowSpec prRow_spec prs
  have htab : formatPullRequestsTable (prs.map prJson) =
      .ok (String.intercalate "\n"
        (["| ID | Title | State | Author | Source -> Dest |", "|---|---|---|---|---|"] ++
          prs.map prRowSpec)) := by
    unfold formatPullRequestsTable
    rw [hrows]
    rfl
  have hcap : capitalize "pullrequests" = "Pullrequests" := by decide
  refine ⟨htab, ?_⟩
  have hlen : (prs.map prJson).length = 0 ↔ False := by
    simp [List.length_eq_zero, hne]
  simp [formatPaginatedAsMarkdown, objGet, List.lookup, htab, hcap, jsTruthy,
    jsToString_num, hne, exceptOk_bind]

/-- Concrete pull request used to instantiate the table theorem. -/
def prExample : PRData :=
  { id := 7, title := "T", state := "OPEN", author := some { display_name := some "A" }, sourceBranch := "feat", destBranch := "main" }

/-- C7 (witness): a singleton pull-request collection. -/
theorem pullRequestsTable_spec_witness :
    formatPullRequestsTable [prJson prExample] =
      .ok "| ID | Title | State | Author | Source -> Dest |\n|---|---|---|---|---|\n| #7 | T | OPEN | A | feat -> main |" := by
  have h := (pullRequestsTable_spec [prExample] (List.cons_ne_nil _ _)).1
  rw [List.map_singleton] at h
  rw [h]
  rfl
